import Mathlib

/-!
Verification of a books CRUD HTTP service with three backend variants:
  * a key-value-only (Redis) variant: integer ids from an atomic counter
    ("next_book_id"), books stored as hashes under keys "book:"+id;
  * a document-store (MongoDB) variant: 12-byte ObjectIDs, documents in a
    "books" collection;
  * a cache-aside variant: MongoDB as durable store plus a Redis cache
    holding per-book entries under "book:"+id and the full list under
    "bookList" (no expiration on cache entries).

Modelling conventions (shallow embedding of the Go handlers):
  * Redis keys in the key-value variant are "book:" ++ Itoa(id) plus the
    counter key "next_book_id"; since "book:" ++ Itoa is injective in the
    id and never equals "next_book_id", the keyspace is represented
    exactly by an association list keyed by the integer id together with
    a separate counter field.
  * Cache keys in the cache-aside variant are "book:" ++ rawPathString
    (note: the code derives the key from the raw path string, not from
    the canonical lowercase hex of the ObjectID) plus the fixed key
    "bookList"; since "book:" ++ s is injective in s and never equals
    "bookList", the keyspace is represented by `CKey`.
  * Stored values are json.Marshal'ed books; Marshal is injective and
    Unmarshal inverts it on values written by this program, so stored
    values are represented by the book records themselves.  The JSON
    *rendering* of list responses is modelled separately (`Jv`) because
    Go's encoding/json serializes a nil `[]Book` slice as `null`.
  * An ObjectID (12 bytes) is modelled as its value as a natural number
    (< 16^24); the driver-side generation of fresh ObjectIDs (`ensureID`)
    is modelled by a generator function `g` applied to a seed held in the
    state.  MongoDB's unique `_id` index is modelled by `InsertOne`
    failing (status 500) when the id is already present.
  * The Redis client in the key-value-only variant is modelled as
    reliable (its error branches return 500 and are never taken); in
    the cache-aside variant each cache *write* (SET / DEL) takes an
    explicit failure flag because the error-handling claims are about
    those failures.  A failed cache *read* is indistinguishable from a
    miss in the code (`if err == nil`), so reads are modelled as
    `Option` lookups.
  * HTTP statuses are natural numbers (200/201/400/404/500).  A request
    body that gin's `ShouldBindJSON` rejects is modelled as `none`.
-/

set_option autoImplicit false

namespace BooksCRUD

/-- A JSON value, as rendered by Go's `encoding/json`; used to state
serialization-level facts such as a nil slice rendering as `null`. -/
inductive Jv where
  | null
  | str (s : String)
  | num (n : Int)
  | arr (elems : List Jv)
  | obj (fields : List (String × Jv))

/-! ### Association lists

The stores (Redis keyspace restricted to book keys, the MongoDB
collection, the cache keyspace) are association lists with
insert-or-replace, erase-first and lookup-first operations. -/

section AList

variable {κ : Type} {α : Type} [DecidableEq κ]

/-- First value bound to key `k`. -/
def lookupA : List (κ × α) → κ → Option α
  | [], _ => none
  | (k', v) :: t, k => if k' = k then some v else lookupA t k

/-- Replace the first binding of `k` in place, or append a new binding. -/
def insertA : List (κ × α) → κ → α → List (κ × α)
  | [], k, v => [(k, v)]
  | (k', v') :: t, k, v =>
      if k' = k then (k, v) :: t else (k', v') :: insertA t k v

/-- Remove the first binding of `k`. -/
def eraseA : List (κ × α) → κ → List (κ × α)
  | [], _ => []
  | (k', v') :: t, k => if k' = k then t else (k', v') :: eraseA t k


end AList

/-! ### String parsing

`goAtoi` models Go's `strconv.Atoi` as used with its error ignored
(`id, _ := strconv.Atoi(...)`): on a syntax error `ParseInt` returns 0.
(The int64 range clamp on overflow is not modelled; no id issued by the
program approaches it.)  `objectIDFromHex` models
`primitive.ObjectIDFromHex`: exactly 24 hexadecimal characters. -/

/-- Numeric value of a decimal digit character, `none` otherwise. -/
def digitVal (c : Char) : Option Nat :=
  if '0' ≤ c ∧ c ≤ '9' then some (c.toNat - 48) else none

/-- Value of a non-empty all-digit character list, `none` otherwise. -/
def decDigitsVal : List Char → Option Nat
  | [] => none
  | l =>
      l.foldl (fun acc c => acc.bind fun n => (digitVal c).map fun d => n * 10 + d)
        (some 0)

/-- `strconv.Atoi`, successful-parse part: optional sign, then digits. -/
def goAtoiRes (s : String) : Option Int :=
  match s.data with
  | '-' :: rest => (decDigitsVal rest).map fun n => -(n : Int)
  | '+' :: rest => (decDigitsVal rest).map fun n => (n : Int)
  | l => (decDigitsVal l).map fun n => (n : Int)

/-- `strconv.Atoi` with the error ignored: a syntax error yields 0. -/
def goAtoi (s : String) : Int :=
  (goAtoiRes s).getD 0

/-- Numeric value of a hexadecimal digit character, `none` otherwise. -/
def hexVal (c : Char) : Option Nat :=
  if '0' ≤ c ∧ c ≤ '9' then some (c.toNat - 48)
  else if 'a' ≤ c ∧ c ≤ 'f' then some (c.toNat - 87)
  else if 'A' ≤ c ∧ c ≤ 'F' then some (c.toNat - 55)
  else none

/-- Value of an all-hex character list (empty list yields 0). -/
def hexListVal : List Char → Option Nat
  | l =>
      l.foldl (fun acc c => acc.bind fun n => (hexVal c).map fun d => n * 16 + d)
        (some 0)

/-- `primitive.ObjectIDFromHex`: a valid ObjectID string is exactly 24
hexadecimal characters; the result is the 12-byte value as a number. -/
def objectIDFromHex (s : String) : Option Nat :=
  if s.data.length = 24 then hexListVal s.data else none

/-- Lowercase hex digit for a value below 16. -/
def hexDigitChar (n : Nat) : Char :=
  if n < 10 then Char.ofNat (48 + n) else Char.ofNat (87 + n)

/-- Big-endian lowercase hex rendering of `n` in exactly `k` digits. -/
def hexCharsAux : Nat → Nat → List Char
  | 0, _ => []
  | k + 1, n => hexCharsAux k (n / 16) ++ [hexDigitChar (n % 16)]

/-- `primitive.ObjectID.Hex()`: 24 lowercase hex characters. -/
def oidHex (n : Nat) : String :=
  ⟨hexCharsAux 24 n⟩

/-! ### Key-value-only (Redis) variant — `main.go`

State: book entries (hash `"book:"+Itoa id`, field `"data"` holding the
marshaled book) plus the value of the counter key `"next_book_id"`
(`Incr` on an absent key yields 1, so the absent counter is 0). -/

/-- `Book` of the key-value-only variant: integer id. -/
structure RBook where
  id : Int
  title : String
  author : String
  deriving DecidableEq

/-- The Redis keyspace of the key-value-only variant. -/
structure RedisState where
  books : List (Int × RBook)
  nextId : Int
  deriving DecidableEq

/-- Empty Redis database (as after `FlushDB`). -/
def redisInit : RedisState := ⟨[], 0⟩

/-- `GET /books/:id` — `getBook` in `main.go` (the `Atoi` error is
ignored, so a non-numeric path id reads key `"book:0"`). -/
def redisGetBook (s : RedisState) (ps : String) : Nat × Option RBook :=
  let i := goAtoi ps
  match lookupA s.books i with
  | some b => (200, some b)
  | none => (404, none)

/-- `GET /books` — `getBooks` in `main.go`: `KEYS "book:*"` (which never
matches `"next_book_id"`), then each entry's `"data"` field is
unmarshaled (always succeeding on values this program wrote). -/
def redisGetBooks (s : RedisState) : Nat × List RBook :=
  (200, s.books.map Prod.snd)

/-- `POST /books` — `createBook` in `main.go`: bind body, `Incr` the
counter, overwrite the bound id with the counter value, `HSet`. -/
def redisCreateBook (s : RedisState) (body : Option RBook) :
    Nat × Option RBook × RedisState :=
  match body with
  | none => (400, none, s)
  | some nb =>
      let newId := s.nextId + 1
      let b : RBook := { nb with id := newId }
      (201, some b, ⟨insertA s.books newId b, newId⟩)

/-- `PUT /books/:id` — `updateBook` in `main.go`: bind body first, then
`HGet` existence check (404 when absent), force the path id, `HSet`. -/
def redisUpdateBook (s : RedisState) (ps : String) (body : Option RBook) :
    Nat × Option RBook × RedisState :=
  let i := goAtoi ps
  match body with
  | none => (400, none, s)
  | some ub =>
      match lookupA s.books i with
      | none => (404, none, s)
      | some _ =>
          let b : RBook := { ub with id := i }
          (200, some b, { s with books := insertA s.books i b })

/-- `DELETE /books/:id` — `deleteBook` in `main.go`: `HGet` existence
check (404 when absent), then `Del`. -/
def redisDeleteBook (s : RedisState) (ps : String) : Nat × RedisState :=
  let i := goAtoi ps
  match lookupA s.books i with
  | none => (404, s)
  | some _ => (200, { s with books := eraseA s.books i })

/-- `encoding/json` rendering of an `RBook`. -/
def rbookJv (b : RBook) : Jv :=
  Jv.obj [("id", Jv.num b.id), ("title", Jv.str b.title),
    ("author", Jv.str b.author)]

/-- Rendering of the `[]Book` slice a list handler builds by `append`:
the slice is nil exactly when nothing was appended, and Go's
`encoding/json` serializes a nil slice as `null`, not `[]`. -/
def rbookListJv (l : List RBook) : Jv :=
  if l.isEmpty then Jv.null else Jv.arr (l.map rbookJv)

/-! ### Document-store (MongoDB) variant — `src/unnamed/part_000`

A document is `{_id, title, author}`; the collection is an association
list keyed by the ObjectID, in insertion order.  `seed` feeds the
driver-side ObjectID generator (`ensureID`), invoked only when the bound
book's id is the zero ObjectID (`bson:"_id,omitempty"` omits the zero
id, so the driver generates one); a nonzero id bound from a
caller-supplied `"_id"` field is inserted as the document id.  MongoDB's
unique `_id` index makes `InsertOne` fail on a duplicate. -/

/-- ObjectID modelled as its 12-byte value. -/
abbrev OId := Nat

/-- `Book` of the document-store variants. -/
structure MBook where
  id : OId
  title : String
  author : String
  deriving DecidableEq

/-- A request body as bound by `ShouldBindJSON` into the Mongo variants'
`Book`: `idSupplied` is the bound `_id` (zero when the field is absent —
`primitive.ObjectID.UnmarshalJSON` accepts a quoted 24-hex string, so a
caller can set it). -/
structure MPayload where
  idSupplied : OId
  title : String
  author : String
  deriving DecidableEq

/-- The `books` collection plus the ObjectID-generator seed. -/
structure MongoState where
  docs : List (OId × (String × String))
  seed : Nat
  deriving DecidableEq

/-- Empty collection (as after `clearMongoDB`). -/
def mongoInit : MongoState := ⟨[], 0⟩

/-- View a stored document as the decoded `Book`. -/
def docBook (p : OId × (String × String)) : MBook :=
  ⟨p.1, p.2.1, p.2.2⟩

/-- `GET /books/:id` — `getBook` in `part_000`: `ObjectIDFromHex` (400
on failure), then `FindOne` (404 when no document matches). -/
def mongoGetBook (s : MongoState) (ps : String) : Nat × Option MBook :=
  match objectIDFromHex ps with
  | none => (400, none)
  | some o =>
      match lookupA s.docs o with
      | some d => (200, some ⟨o, d.1, d.2⟩)
      | none => (404, none)

/-- `GET /books` — `getBooks` in `part_000`: `Find` all, decode each, in
insertion order. -/
def mongoGetBooks (s : MongoState) : Nat × List MBook :=
  (200, s.docs.map docBook)

/-- `POST /books` — `createBook` in `part_000`: bind body, `InsertOne`
(driver generates the `_id` only when the bound id is zero; duplicate
`_id` is a write error → 500), return the book with `InsertedID`. -/
def mongoCreateBook (g : Nat → OId) (s : MongoState) (body : Option MPayload) :
    Nat × Option MBook × MongoState :=
  match body with
  | none => (400, none, s)
  | some p =>
      let docId := if p.idSupplied = 0 then g s.seed else p.idSupplied
      let seed2 := if p.idSupplied = 0 then s.seed + 1 else s.seed
      if (lookupA s.docs docId).isSome then
        (500, none, { s with seed := seed2 })
      else
        (201, some ⟨docId, p.title, p.author⟩,
          ⟨insertA s.docs docId (p.title, p.author), seed2⟩)

/-- `PUT /books/:id` — `updateBook` in `part_000`: parse id (400), bind
body (400), force the path id, `UpdateOne` with `$set` and no existence
check: a match replaces the fields in place, no match is a successful
no-op; 200 either way. -/
def mongoUpdateBook (s : MongoState) (ps : String) (body : Option MPayload) :
    Nat × Option MBook × MongoState :=
  match objectIDFromHex ps with
  | none => (400, none, s)
  | some o =>
      match body with
      | none => (400, none, s)
      | some p =>
          let docs2 := if (lookupA s.docs o).isSome
            then insertA s.docs o (p.title, p.author) else s.docs
          (200, some ⟨o, p.title, p.author⟩, { s with docs := docs2 })

/-- `DELETE /books/:id` — `deleteBook` in `part_000`: parse id (400),
`DeleteOne`; `DeletedCount = 0` → 404. -/
def mongoDeleteBook (s : MongoState) (ps : String) : Nat × MongoState :=
  match objectIDFromHex ps with
  | none => (400, s)
  | some o =>
      if (lookupA s.docs o).isSome then (200, { s with docs := eraseA s.docs o })
      else (404, s)

/-- `encoding/json` rendering of an `MBook` (`_id,omitempty`). -/
def mbookJv (b : MBook) : Jv :=
  Jv.obj ((if b.id = 0 then [] else [("_id", Jv.str (oidHex b.id))]) ++
    [("title", Jv.str b.title), ("author", Jv.str b.author)])

/-- Rendering of a `[]Book` slice in the Mongo variants (nil → `null`). -/
def mbookListJv (l : List MBook) : Jv :=
  if l.isEmpty then Jv.null else Jv.arr (l.map mbookJv)

/-! ### Cache-aside variant — `src/unnamed/part_001`

MongoDB durable store plus a Redis cache.  Cache keys are
`"book:" ++ rawPathString` (for entries written by `getBook`,
`updateBook`, `deleteBook`), `"book:" ++ Hex(id)` (written by
`createBook`) and the fixed `"bookList"`; values are marshaled books or
the marshaled book list.  Cache writes (`SET`/`DEL`) carry an explicit
failure flag; a failed or missing cache read is a miss (`if err == nil`).
Handlers that read MongoDB also return the number of MongoDB read
operations they issued (`FindOne`/`Find` calls), for the
cache-effectiveness claims. -/

/-- Cache key: `"book:" ++ s` or the fixed `"bookList"` (the two shapes
never collide as strings, and `"book:" ++ ·` is injective). -/
inductive CKey where
  | bookKey (s : String)
  | listKey
  deriving DecidableEq

/-- Cached value: a marshaled book or a marshaled book list. -/
inductive CVal where
  | bookVal (b : MBook)
  | listVal (l : List MBook)
  deriving DecidableEq

/-- Durable store, generator seed, and cache of the cache-aside variant. -/
structure CAState where
  docs : List (OId × (String × String))
  seed : Nat
  cache : List (CKey × CVal)
  deriving DecidableEq

/-- Empty durable store and empty cache. -/
def caInit : CAState := ⟨[], 0, []⟩

/-- `GET /books/:id` — `getBook` in `part_001`: parse id (400), try the
cache under `"book:"+id` (a hit is returned without touching MongoDB; a
cached value of the wrong shape fails to unmarshal → 500), on a miss
`FindOne` (404 when absent) then `SET` the entry with no expiration. -/
def caGetBook (s : CAState) (ps : String) (setFails : Bool) :
    Nat × Option MBook × CAState × Nat :=
  match objectIDFromHex ps with
  | none => (400, none, s, 0)
  | some o =>
      match lookupA s.cache (CKey.bookKey ps) with
      | some (CVal.bookVal b) => (200, some b, s, 0)
      | some (CVal.listVal _) => (500, none, s, 0)
      | none =>
          match lookupA s.docs o with
          | none => (404, none, s, 1)
          | some d =>
              let b : MBook := ⟨o, d.1, d.2⟩
              if setFails then (500, none, s, 1)
              else (200, some b,
                { s with cache :=
                    insertA s.cache (CKey.bookKey ps) (CVal.bookVal b) }, 1)

/-- `GET /books` — `getBooks` in `part_001`: try the cache under
`"bookList"`; on a miss `Find` all books in MongoDB and `SET` the list
entry with no expiration. -/
def caGetBooks (s : CAState) (setFails : Bool) :
    Nat × Option (List MBook) × CAState × Nat :=
  match lookupA s.cache CKey.listKey with
  | some (CVal.listVal l) => (200, some l, s, 0)
  | some (CVal.bookVal _) => (500, none, s, 0)
  | none =>
      let l := s.docs.map docBook
      if setFails then (500, none, s, 1)
      else (200, some l,
        { s with cache := insertA s.cache CKey.listKey (CVal.listVal l) }, 1)

/-- `POST /books` — `createBook` in `part_001`: as in the document-store
variant, then `SET` the cache entry under `"book:" ++ Hex(id)`; a cache
write failure is a 500 with the MongoDB insert left in place. -/
def caCreateBook (g : Nat → OId) (s : CAState) (body : Option MPayload)
    (setFails : Bool) : Nat × Option MBook × CAState :=
  match body with
  | none => (400, none, s)
  | some p =>
      let docId := if p.idSupplied = 0 then g s.seed else p.idSupplied
      let seed2 := if p.idSupplied = 0 then s.seed + 1 else s.seed
      if (lookupA s.docs docId).isSome then
        (500, none, { s with seed := seed2 })
      else
        let b : MBook := ⟨docId, p.title, p.author⟩
        let s2 : CAState :=
          { s with docs := insertA s.docs docId (p.title, p.author), seed := seed2 }
        if setFails then (500, none, s2)
        else (201, some b,
          { s2 with cache :=
              insertA s2.cache (CKey.bookKey (oidHex docId)) (CVal.bookVal b) })

/-- `PUT /books/:id` — `updateBook` in `part_001`: parse id (400), bind
body (400), force the path id, `UpdateOne` with `$set` and no existence
check (no-op on no match), then `SET` the cache entry under
`"book:"+id`; a cache write failure is a 500 with the MongoDB update
left in place. -/
def caUpdateBook (s : CAState) (ps : String) (body : Option MPayload)
    (setFails : Bool) : Nat × Option MBook × CAState :=
  match objectIDFromHex ps with
  | none => (400, none, s)
  | some o =>
      match body with
      | none => (400, none, s)
      | some p =>
          let b : MBook := ⟨o, p.title, p.author⟩
          let docs2 := if (lookupA s.docs o).isSome
            then insertA s.docs o (p.title, p.author) else s.docs
          let s2 : CAState := { s with docs := docs2 }
          if setFails then (500, none, s2)
          else (200, some b,
            { s2 with cache :=
                insertA s2.cache (CKey.bookKey ps) (CVal.bookVal b) })

/-- `DELETE /books/:id` — `deleteBook` in `part_001`: parse id (400),
`DeleteOne` (404 when `DeletedCount = 0`), then `Del` the cache entry;
a cache delete failure is a 500 with the MongoDB delete left in place. -/
def caDeleteBook (s : CAState) (ps : String) (delFails : Bool) :
    Nat × CAState :=
  match objectIDFromHex ps with
  | none => (400, s)
  | some o =>
      if (lookupA s.docs o).isSome then
        let s2 : CAState := { s with docs := eraseA s.docs o }
        if delFails then (500, s2)
        else (200, { s2 with cache := eraseA s2.cache (CKey.bookKey ps) })
      else (404, s)

/-! ### Operation sequences for the List claim

A run is a sequence of create and delete requests applied in order; the
run's flag is `true` exactly when every request in it succeeded
(status 200/201). -/

/-- A create or delete request in the key-value-only variant. -/
inductive ROp where
  | create (body : RBook)
  | delete (ps : String)

/-- One request of the key-value-only variant: status and next state. -/
def redisStep (s : RedisState) : ROp → Nat × RedisState
  | ROp.create b =>
      let r := redisCreateBook s (some b)
      (r.1, r.2.2)
  | ROp.delete ps => redisDeleteBook s ps

/-- Run a request sequence; the flag is `true` iff all succeeded. -/
def redisRun : RedisState → List ROp → Bool × RedisState
  | s, [] => (true, s)
  | s, op :: t =>
      let r := redisStep s op
      let rest := redisRun r.2 t
      (((r.1 == 200) || (r.1 == 201)) && rest.1, rest.2)

/-- Number of create requests in a sequence. -/
def rCreates : List ROp → Nat
  | [] => 0
  | ROp.create _ :: t => rCreates t + 1
  | ROp.delete _ :: t => rCreates t

/-- Number of delete requests in a sequence. -/
def rDeletes : List ROp → Nat
  | [] => 0
  | ROp.create _ :: t => rDeletes t
  | ROp.delete _ :: t => rDeletes t + 1

/-- Reference step following the spec's words for the List claim
(key-value-only variant): a map from the live ids to their last-written
fields, ids assigned by the counter at creation time. -/
def rSpecStep (acc : List (Int × (String × String)) × Int) :
    ROp → List (Int × (String × String)) × Int
  | ROp.create b => (insertA acc.1 (acc.2 + 1) (b.title, b.author), acc.2 + 1)
  | ROp.delete ps => (eraseA acc.1 (goAtoi ps), acc.2)

/-- The last-written map of a whole sequence, from the empty store. -/
def rSpecFold (ops : List ROp) : List (Int × (String × String)) × Int :=
  ops.foldl rSpecStep ([], 0)

/-- A create or delete request in the document-store variant. -/
inductive MOp where
  | create (body : MPayload)
  | delete (ps : String)

/-- One request of the document-store variant. -/
def mongoStep (g : Nat → OId) (s : MongoState) : MOp → Nat × MongoState
  | MOp.create p =>
      let r := mongoCreateBook g s (some p)
      (r.1, r.2.2)
  | MOp.delete ps => mongoDeleteBook s ps

/-- Run a request sequence; the flag is `true` iff all succeeded. -/
def mongoRun (g : Nat → OId) : MongoState → List MOp → Bool × MongoState
  | s, [] => (true, s)
  | s, op :: t =>
      let r := mongoStep g s op
      let rest := mongoRun g r.2 t
      (((r.1 == 200) || (r.1 == 201)) && rest.1, rest.2)

/-- Number of create requests in a sequence. -/
def mCreates : List MOp → Nat
  | [] => 0
  | MOp.create _ :: t => mCreates t + 1
  | MOp.delete _ :: t => mCreates t

/-- Number of delete requests in a sequence. -/
def mDeletes : List MOp → Nat
  | [] => 0
  | MOp.create _ :: t => mDeletes t
  | MOp.delete _ :: t => mDeletes t + 1

/-- Reference step following the spec's words for the List claim
(document-store variants): the live ids mapped to their last-written
fields, ids chosen as at creation time (generated from the seed when the
body supplies none). -/
def mSpecStep (g : Nat → OId) (acc : List (OId × (String × String)) × Nat) :
    MOp → List (OId × (String × String)) × Nat
  | MOp.create p =>
      let docId := if p.idSupplied = 0 then g acc.2 else p.idSupplied
      let seed2 := if p.idSupplied = 0 then acc.2 + 1 else acc.2
      (insertA acc.1 docId (p.title, p.author), seed2)
  | MOp.delete ps =>
      match objectIDFromHex ps with
      | some o => (eraseA acc.1 o, acc.2)
      | none => acc

/-- The last-written map of a whole sequence, from the empty store. -/
def mSpecFold (g : Nat → OId) (ops : List MOp) :
    List (OId × (String × String)) × Nat :=
  ops.foldl (mSpecStep g) ([], 0)

/-- A create or delete request in the cache-aside variant, with the
failure flag of its cache write. -/
inductive CAOp where
  | create (body : MPayload) (setFails : Bool)
  | delete (ps : String) (delFails : Bool)

/-- One request of the cache-aside variant. -/
def caStep (g : Nat → OId) (s : CAState) : CAOp → Nat × CAState
  | CAOp.create p sf =>
      let r := caCreateBook g s (some p) sf
      (r.1, r.2.2)
  | CAOp.delete ps df => caDeleteBook s ps df

/-- Run a request sequence; the flag is `true` iff all succeeded. -/
def caRun (g : Nat → OId) : CAState → List CAOp → Bool × CAState
  | s, [] => (true, s)
  | s, op :: t =>
      let r := caStep g s op
      let rest := caRun g r.2 t
      (((r.1 == 200) || (r.1 == 201)) && rest.1, rest.2)

/-- Number of create requests in a sequence. -/
def caCreates : List CAOp → Nat
  | [] => 0
  | CAOp.create _ _ :: t => caCreates t + 1
  | CAOp.delete _ _ :: t => caCreates t

/-- Number of delete requests in a sequence. -/
def caDeletes : List CAOp → Nat
  | [] => 0
  | CAOp.create _ _ :: t => caDeletes t
  | CAOp.delete _ _ :: t => caDeletes t + 1

/-- Forget the cache-failure flags of a cache-aside request. -/
def caToMOp : CAOp → MOp
  | CAOp.create p _ => MOp.create p
  | CAOp.delete ps _ => MOp.delete ps

/-! ### Association-list lemmas -/

section AListLemmas

variable {κ : Type} {α : Type} [DecidableEq κ]

@[simp] theorem lookupA_nil (k : κ) : lookupA ([] : List (κ × α)) k = none := rfl

theorem lookupA_insertA_self (l : List (κ × α)) (k : κ) (v : α) :
    lookupA (insertA l k v) k = some v := by
  induction l with
  | nil => simp [insertA, lookupA]
  | cons p t ih =>
      by_cases h : p.1 = k
      · simp [insertA, lookupA, h]
      · simp [insertA, lookupA, h, ih]

theorem lookupA_insertA_ne (l : List (κ × α)) (k j : κ) (v : α) (h : j ≠ k) :
    lookupA (insertA l k v) j = lookupA l j := by
  induction l with
  | nil => simp [insertA, lookupA, Ne.symm h]
  | cons p t ih =>
      by_cases hk : p.1 = k
      · simp [insertA, lookupA, hk, Ne.symm h]
      · by_cases hj : p.1 = j <;>
          simp [insertA, lookupA, hk, hj, h, Ne.symm h, ih]

theorem lookupA_eraseA_ne (l : List (κ × α)) (k j : κ) (h : j ≠ k) :
    lookupA (eraseA l k) j = lookupA l j := by
  induction l with
  | nil => simp [eraseA]
  | cons p t ih =>
      by_cases hk : p.1 = k
      · have hj : ¬ p.1 = j := fun hh => h (hh ▸ hk)
        simp [eraseA, lookupA, hk, hj, Ne.symm h]
      · by_cases hj : p.1 = j <;>
          simp [eraseA, lookupA, hk, hj, h, Ne.symm h, ih]

theorem length_insertA (l : List (κ × α)) (k : κ) (v : α) :
    (insertA l k v).length =
      if (lookupA l k).isSome then l.length else l.length + 1 := by
  induction l with
  | nil => simp [insertA, lookupA]
  | cons p t ih =>
      by_cases h : p.1 = k
      · simp [insertA, lookupA, h]
      · simp only [insertA, lookupA, h, if_false, List.length_cons, ih]
        by_cases h2 : (lookupA t k).isSome <;> simp [h2]

theorem length_insertA_new (l : List (κ × α)) (k : κ) (v : α)
    (h : lookupA l k = none) : (insertA l k v).length = l.length + 1 := by
  rw [length_insertA, h]; simp

theorem length_eraseA (l : List (κ × α)) (k : κ)
    (h : (lookupA l k).isSome) : (eraseA l k).length + 1 = l.length := by
  induction l with
  | nil => simp [lookupA] at h
  | cons p t ih =>
      by_cases hk : p.1 = k
      · simp [eraseA, hk]
      · simp only [lookupA, hk, if_false] at h
        simp [eraseA, hk, ih h]

theorem lookupA_eq_none (l : List (κ × α)) (k : κ)
    (h : ∀ p ∈ l, p.1 ≠ k) : lookupA l k = none := by
  induction l with
  | nil => rfl
  | cons p t ih =>
      have h1 : ¬ p.1 = k := h p (List.mem_cons_self _ _)
      simp only [lookupA, h1, if_false]
      exact ih fun q hq => h q (List.mem_cons_of_mem _ hq)

theorem lookupA_map {β : Type} (l : List (κ × α)) (f : κ → α → β) (k : κ) :
    lookupA (l.map fun p => (p.1, f p.1 p.2)) k = (lookupA l k).map (f k) := by
  induction l with
  | nil => rfl
  | cons p t ih =>
      by_cases h : p.1 = k <;> simp [lookupA, h, ih]

theorem insertA_map {β : Type} (l : List (κ × α)) (f : κ → α → β) (k : κ)
    (v : α) :
    insertA (l.map fun p => (p.1, f p.1 p.2)) k (f k v)
      = (insertA l k v).map fun p => (p.1, f p.1 p.2) := by
  induction l with
  | nil => simp [insertA]
  | cons p t ih =>
      by_cases h : p.1 = k <;> simp [insertA, h, ih]

theorem eraseA_map {β : Type} (l : List (κ × α)) (f : κ → α → β) (k : κ) :
    eraseA (l.map fun p => (p.1, f p.1 p.2)) k
      = (eraseA l k).map fun p => (p.1, f p.1 p.2) := by
  induction l with
  | nil => rfl
  | cons p t ih =>
      by_cases h : p.1 = k <;> simp [eraseA, h, ih]

theorem mem_insertA (l : List (κ × α)) (k : κ) (v : α) (p : κ × α)
    (h : p ∈ insertA l k v) : p = (k, v) ∨ p ∈ l := by
  induction l with
  | nil => simpa [insertA] using h
  | cons q t ih =>
      by_cases hk : q.1 = k
      · simp only [insertA, hk, if_true, List.mem_cons] at h
        rcases h with h | h
        · exact Or.inl h
        · exact Or.inr (List.mem_cons_of_mem _ h)
      · simp only [insertA, hk, if_false, List.mem_cons] at h
        rcases h with h | h
        · exact Or.inr (h ▸ List.mem_cons_self _ _)
        · rcases ih h with h' | h'
          · exact Or.inl h'
          · exact Or.inr (List.mem_cons_of_mem _ h')

theorem lookupA_eraseA_self (l : List (κ × α)) (k : κ)
    (h : (l.map Prod.fst).Nodup) : lookupA (eraseA l k) k = none := by
  induction l with
  | nil => rfl
  | cons p t ih =>
      simp only [List.map_cons, List.nodup_cons] at h
      by_cases hk : p.1 = k
      · subst hk
        simp only [eraseA, if_pos rfl]
        refine lookupA_eq_none t p.1 fun q hq hqe => h.1 ?_
        exact hqe ▸ List.mem_map_of_mem Prod.fst hq
      · simp [eraseA, lookupA, hk, ih h.2]

theorem mem_eraseA (l : List (κ × α)) (k : κ) (p : κ × α)
    (h : p ∈ eraseA l k) : p ∈ l := by
  induction l with
  | nil => exact absurd h (List.not_mem_nil p)
  | cons q t ih =>
      by_cases hk : q.1 = k
      · simp only [eraseA, hk, if_true] at h
        exact List.mem_cons_of_mem _ h
      · simp only [eraseA, hk, if_false, List.mem_cons] at h
        rcases h with h | h
        · exact h ▸ List.mem_cons_self _ _
        · exact List.mem_cons_of_mem _ (ih h)

end AListLemmas

/-! ### Run lemmas for the List claim -/

theorem redisRun_cons (s : RedisState) (op : ROp) (t : List ROp) :
    redisRun s (op :: t)
      = (((redisStep s op).1 == 200 || (redisStep s op).1 == 201)
            && (redisRun (redisStep s op).2 t).1,
          (redisRun (redisStep s op).2 t).2) := rfl

theorem mongoRun_cons (g : Nat → OId) (s : MongoState) (op : MOp)
    (t : List MOp) :
    mongoRun g s (op :: t)
      = (((mongoStep g s op).1 == 200 || (mongoStep g s op).1 == 201)
            && (mongoRun g (mongoStep g s op).2 t).1,
          (mongoRun g (mongoStep g s op).2 t).2) := rfl

theorem caRun_cons (g : Nat → OId) (s : CAState) (op : CAOp)
    (t : List CAOp) :
    caRun g s (op :: t)
      = (((caStep g s op).1 == 200 || (caStep g s op).1 == 201)
            && (caRun g (caStep g s op).2 t).1,
          (caRun g (caStep g s op).2 t).2) := rfl

/-- Core invariant of the key-value-only variant: along an all-successful
run, the store tracks the spec-level last-written map (with ids assigned
by the counter), and its size grows by one per create and shrinks by one
per delete. -/
theorem redisRun_ref (ops : List ROp) :
    ∀ (s : RedisState) (m : List (Int × (String × String))),
      s.books = (m.map fun p => (p.1, RBook.mk p.1 p.2.1 p.2.2)) →
      (∀ p ∈ m, p.1 ≤ s.nextId) →
      (redisRun s ops).1 = true →
      (redisRun s ops).2.books
          = ((ops.foldl rSpecStep (m, s.nextId)).1.map
              fun p => (p.1, RBook.mk p.1 p.2.1 p.2.2))
      ∧ (ops.foldl rSpecStep (m, s.nextId)).1.length + rDeletes ops
          = m.length + rCreates ops := by
  induction ops with
  | nil =>
      intro s m hb _ _
      exact ⟨by simpa [redisRun] using hb, by simp [rCreates, rDeletes]⟩
  | cons op t ih =>
      intro s m hb hk hok
      rw [redisRun_cons] at hok ⊢
      rw [List.foldl_cons]
      cases op with
      | create b =>
          have hstep : redisStep s (ROp.create b)
              = (201, ⟨insertA s.books (s.nextId + 1)
                  ⟨s.nextId + 1, b.title, b.author⟩, s.nextId + 1⟩) := rfl
          rw [hstep] at hok ⊢
          simp only [Bool.and_eq_true] at hok
          have hnew : lookupA m (s.nextId + 1) = none :=
            lookupA_eq_none m _ fun p hp he => by
              have := hk p hp; omega
          have hb' : (insertA s.books (s.nextId + 1)
                ⟨s.nextId + 1, b.title, b.author⟩)
              = ((insertA m (s.nextId + 1) (b.title, b.author)).map
                  fun p => (p.1, RBook.mk p.1 p.2.1 p.2.2)) := by
            rw [hb]
            exact insertA_map m (fun k v => RBook.mk k v.1 v.2)
              (s.nextId + 1) (b.title, b.author)
          have hk' : ∀ p ∈ insertA m (s.nextId + 1) (b.title, b.author),
              p.1 ≤ s.nextId + 1 := by
            intro p hp
            rcases mem_insertA m _ _ p hp with h | h
            · rw [h]
            · have := hk p h; omega
          have hrec := ih ⟨insertA s.books (s.nextId + 1)
              ⟨s.nextId + 1, b.title, b.author⟩, s.nextId + 1⟩
            (insertA m (s.nextId + 1) (b.title, b.author)) hb' hk' hok.2
          refine ⟨hrec.1, ?_⟩
          have hlen := length_insertA_new m (s.nextId + 1)
            (b.title, b.author) hnew
          have := hrec.2
          simp only [rSpecStep, rCreates, rDeletes] at *
          omega
      | delete ps =>
          cases hlk : lookupA s.books (goAtoi ps) with
          | none =>
              have hstep : redisStep s (ROp.delete ps) = (404, s) := by
                simp [redisStep, redisDeleteBook, hlk]
              rw [hstep] at hok
              simp at hok
          | some b' =>
              have hstep : redisStep s (ROp.delete ps)
                  = (200, ⟨eraseA s.books (goAtoi ps), s.nextId⟩) := by
                simp [redisStep, redisDeleteBook, hlk]
              rw [hstep] at hok ⊢
              simp only [Bool.and_eq_true] at hok
              have hmem : (lookupA m (goAtoi ps)).isSome := by
                rw [hb] at hlk
                cases h : lookupA m (goAtoi ps) with
                | none =>
                    have h2 : lookupA
                        (m.map fun p => (p.1, RBook.mk p.1 p.2.1 p.2.2))
                        (goAtoi ps) = none :=
                      (lookupA_map m (fun k v => RBook.mk k v.1 v.2)
                        (goAtoi ps)).trans (by rw [h]; rfl)
                    rw [hlk] at h2
                    exact Option.noConfusion h2
                | some v => rfl
              have hb' : eraseA s.books (goAtoi ps)
                  = ((eraseA m (goAtoi ps)).map
                      fun p => (p.1, RBook.mk p.1 p.2.1 p.2.2)) := by
                rw [hb]
                exact eraseA_map m (fun k v => RBook.mk k v.1 v.2) (goAtoi ps)
              have hk' : ∀ p ∈ eraseA m (goAtoi ps), p.1 ≤ s.nextId :=
                fun p hp => hk p (mem_eraseA m _ p hp)
              have hrec := ih ⟨eraseA s.books (goAtoi ps), s.nextId⟩
                (eraseA m (goAtoi ps)) hb' hk' hok.2
              refine ⟨hrec.1, ?_⟩
              have hlen := length_eraseA m (goAtoi ps) hmem
              have := hrec.2
              simp only [rSpecStep, rCreates, rDeletes] at *
              omega

/-- Core invariant of the document-store variant: along an
all-successful run the collection and seed follow the spec-level
last-written fold, and the collection's size grows by one per create
and shrinks by one per delete. -/
theorem mongoRun_ref (g : Nat → OId) (ops : List MOp) :
    ∀ s : MongoState,
      (mongoRun g s ops).1 = true →
      ((mongoRun g s ops).2.docs, (mongoRun g s ops).2.seed)
          = ops.foldl (mSpecStep g) (s.docs, s.seed)
      ∧ (ops.foldl (mSpecStep g) (s.docs, s.seed)).1.length + mDeletes ops
          = s.docs.length + mCreates ops := by
  induction ops with
  | nil => intro s _; exact ⟨rfl, by simp [mCreates, mDeletes]⟩
  | cons op t ih =>
      intro s hok
      rw [mongoRun_cons] at hok ⊢
      rw [List.foldl_cons]
      cases op with
      | create p =>
          by_cases hdup : (lookupA s.docs
              (if p.idSupplied = 0 then g s.seed else p.idSupplied)).isSome
          · have hstep : mongoStep g s (MOp.create p)
                = (500, ⟨s.docs,
                    if p.idSupplied = 0 then s.seed + 1 else s.seed⟩) := by
              simp [mongoStep, mongoCreateBook, hdup]
            rw [hstep] at hok
            simp at hok
          · have hnone : lookupA s.docs
                (if p.idSupplied = 0 then g s.seed else p.idSupplied) = none :=
              Option.not_isSome_iff_eq_none.mp hdup
            have hstep : mongoStep g s (MOp.create p)
                = (201, ⟨insertA s.docs
                    (if p.idSupplied = 0 then g s.seed else p.idSupplied)
                    (p.title, p.author),
                    if p.idSupplied = 0 then s.seed + 1 else s.seed⟩) := by
              simp [mongoStep, mongoCreateBook, hdup]
            rw [hstep] at hok ⊢
            simp only [Bool.and_eq_true] at hok
            have hrec := ih ⟨insertA s.docs
                (if p.idSupplied = 0 then g s.seed else p.idSupplied)
                (p.title, p.author),
                if p.idSupplied = 0 then s.seed + 1 else s.seed⟩ hok.2
            refine ⟨hrec.1, ?_⟩
            have hlen := length_insertA_new s.docs
              (if p.idSupplied = 0 then g s.seed else p.idSupplied)
              (p.title, p.author) hnone
            have := hrec.2
            simp only [mSpecStep, mCreates, mDeletes] at *
            omega
      | delete ps =>
          cases hpr : objectIDFromHex ps with
          | none =>
              have hstep : mongoStep g s (MOp.delete ps) = (400, s) := by
                simp [mongoStep, mongoDeleteBook, hpr]
              rw [hstep] at hok
              simp at hok
          | some o =>
              by_cases hex : (lookupA s.docs o).isSome
              · have hstep : mongoStep g s (MOp.delete ps)
                    = (200, ⟨eraseA s.docs o, s.seed⟩) := by
                  simp [mongoStep, mongoDeleteBook, hpr, hex]
                rw [hstep] at hok ⊢
                simp only [Bool.and_eq_true] at hok
                have hrec := ih ⟨eraseA s.docs o, s.seed⟩ hok.2
                have hspec : mSpecStep g (s.docs, s.seed) (MOp.delete ps)
                    = (eraseA s.docs o, s.seed) := by
                  simp [mSpecStep, hpr]
                rw [hspec]
                refine ⟨hrec.1, ?_⟩
                have hlen := length_eraseA s.docs o hex
                have := hrec.2
                simp only [mCreates, mDeletes] at *
                omega
              · have hstep : mongoStep g s (MOp.delete ps) = (404, s) := by
                  simp [mongoStep, mongoDeleteBook, hpr, hex]
                rw [hstep] at hok
                simp at hok

/-- Core invariant of the cache-aside variant: along an all-successful
run the durable store follows the same spec-level fold as the
document-store variant, the size bookkeeping holds, and no request of
the run writes the `"bookList"` cache entry. -/
theorem caRun_ref (g : Nat → OId) (ops : List CAOp) :
    ∀ s : CAState,
      (caRun g s ops).1 = true →
      ((caRun g s ops).2.docs, (caRun g s ops).2.seed)
          = (ops.map caToMOp).foldl (mSpecStep g) (s.docs, s.seed)
      ∧ ((ops.map caToMOp).foldl (mSpecStep g) (s.docs, s.seed)).1.length
            + caDeletes ops
          = s.docs.length + caCreates ops
      ∧ (lookupA s.cache CKey.listKey = none →
          lookupA (caRun g s ops).2.cache CKey.listKey = none) := by
  induction ops with
  | nil =>
      intro s _
      exact ⟨rfl, by simp [caCreates, caDeletes], fun h => h⟩
  | cons op t ih =>
      intro s hok
      rw [caRun_cons] at hok ⊢
      rw [List.map_cons, List.foldl_cons]
      cases op with
      | create p sf =>
          by_cases hdup : (lookupA s.docs
              (if p.idSupplied = 0 then g s.seed else p.idSupplied)).isSome
          · have hstep : caStep g s (CAOp.create p sf)
                = (500, ⟨s.docs,
                    if p.idSupplied = 0 then s.seed + 1 else s.seed,
                    s.cache⟩) := by
              simp [caStep, caCreateBook, hdup]
            rw [hstep] at hok
            simp at hok
          · have hnone : lookupA s.docs
                (if p.idSupplied = 0 then g s.seed else p.idSupplied) = none :=
              Option.not_isSome_iff_eq_none.mp hdup
            cases sf with
            | true =>
                have hstep : caStep g s (CAOp.create p true)
                    = (500, ⟨insertA s.docs
                        (if p.idSupplied = 0 then g s.seed else p.idSupplied)
                        (p.title, p.author),
                        if p.idSupplied = 0 then s.seed + 1 else s.seed,
                        s.cache⟩) := by
                  simp [caStep, caCreateBook, hdup]
                rw [hstep] at hok
                simp at hok
            | false =>
                have hstep : caStep g s (CAOp.create p false)
                    = (201, ⟨insertA s.docs
                        (if p.idSupplied = 0 then g s.seed else p.idSupplied)
                        (p.title, p.author),
                        if p.idSupplied = 0 then s.seed + 1 else s.seed,
                        insertA s.cache
                          (CKey.bookKey (oidHex
                            (if p.idSupplied = 0 then g s.seed
                              else p.idSupplied)))
                          (CVal.bookVal
                            ⟨if p.idSupplied = 0 then g s.seed
                                else p.idSupplied,
                              p.title, p.author⟩)⟩) := by
                  simp [caStep, caCreateBook, hdup]
                rw [hstep] at hok ⊢
                simp only [Bool.and_eq_true] at hok
                have hrec := ih _ hok.2
                refine ⟨hrec.1, ?_, fun hempty => ?_⟩
                · have hlen := length_insertA_new s.docs
                    (if p.idSupplied = 0 then g s.seed else p.idSupplied)
                    (p.title, p.author) hnone
                  have := hrec.2.1
                  simp only [caToMOp, mSpecStep, caCreates, caDeletes] at *
                  omega
                · refine hrec.2.2 ?_
                  have hne : CKey.listKey ≠ CKey.bookKey (oidHex
                      (if p.idSupplied = 0 then g s.seed
                        else p.idSupplied)) := fun h => CKey.noConfusion h
                  rw [lookupA_insertA_ne _ _ _ _ hne]
                  exact hempty
      | delete ps df =>
          cases hpr : objectIDFromHex ps with
          | none =>
              have hstep : caStep g s (CAOp.delete ps df) = (400, s) := by
                simp [caStep, caDeleteBook, hpr]
              rw [hstep] at hok
              simp at hok
          | some o =>
              by_cases hex : (lookupA s.docs o).isSome
              · cases df with
                | true =>
                    have hstep : caStep g s (CAOp.delete ps true)
                        = (500, ⟨eraseA s.docs o, s.seed, s.cache⟩) := by
                      simp [caStep, caDeleteBook, hpr, hex]
                    rw [hstep] at hok
                    simp at hok
                | false =>
                    have hstep : caStep g s (CAOp.delete ps false)
                        = (200, ⟨eraseA s.docs o, s.seed,
                            eraseA s.cache (CKey.bookKey ps)⟩) := by
                      simp [caStep, caDeleteBook, hpr, hex]
                    rw [hstep] at hok ⊢
                    simp only [Bool.and_eq_true] at hok
                    have hrec := ih _ hok.2
                    have hspec : mSpecStep g (s.docs, s.seed)
                        (caToMOp (CAOp.delete ps false))
                        = (eraseA s.docs o, s.seed) := by
                      simp [caToMOp, mSpecStep, hpr]
                    rw [hspec]
                    refine ⟨hrec.1, ?_, fun hempty => ?_⟩
                    · have hlen := length_eraseA s.docs o hex
                      have := hrec.2.1
                      simp only [hspec, caCreates, caDeletes] at *
                      omega
                    · refine hrec.2.2 ?_
                      have hne : CKey.listKey ≠ CKey.bookKey ps :=
                        fun h => CKey.noConfusion h
                      rw [lookupA_eraseA_ne _ _ _ hne]
                      exact hempty
              · have hstep : caStep g s (CAOp.delete ps df) = (404, s) := by
                  simp [caStep, caDeleteBook, hpr, hex]
                rw [hstep] at hok
                simp at hok

/-- Projecting id/title/author back out of the rendered book list
inverts the key-value store's representation map. -/
theorem map_proj_ref (ref : List (Int × (String × String))) :
    ((ref.map fun p => (p.1, RBook.mk p.1 p.2.1 p.2.2)).map Prod.snd).map
        (fun b => (b.id, b.title, b.author)) = ref := by
  induction ref with
  | nil => rfl
  | cons p t ih =>
      simp only [List.map_cons]
      rw [ih]

/-- Projecting id/title/author back out of decoded documents inverts
the document representation. -/
theorem map_proj_docs (ref : List (OId × (String × String))) :
    (ref.map docBook).map (fun b => (b.id, b.title, b.author)) = ref := by
  induction ref with
  | nil => rfl
  | cons p t ih => simp [docBook, ih]

/-! ### Claim theorems -/

/-- C3: For an id with no existing book and a parseable body, Update
returns 404 NotFound in the key-value-only variant (explicit existence
check), while both document-store variants perform no existence check
and answer 200 with the durable store unchanged — a successful no-op
update. -/
theorem updateMissingBehavior
    (rs : RedisState) (rps : String) (rb : RBook)
    (hr : lookupA rs.books (goAtoi rps) = none)
    (ms : MongoState) (mps : String) (o : OId) (p : MPayload)
    (hm : objectIDFromHex mps = some o) (hmiss : lookupA ms.docs o = none)
    (cs : CAState) (cps : String) (o2 : OId) (q : MPayload)
    (hc : objectIDFromHex cps = some o2) (hcmiss : lookupA cs.docs o2 = none) :
    (redisUpdateBook rs rps (some rb)).1 = 404
    ∧ (mongoUpdateBook ms mps (some p)).1 = 200
    ∧ (mongoUpdateBook ms mps (some p)).2.2.docs = ms.docs
    ∧ (caUpdateBook cs cps (some q) false).1 = 200
    ∧ (caUpdateBook cs cps (some q) false).2.2.docs = cs.docs := by
  refine ⟨?_, ?_, ?_, ?_, ?_⟩ <;>
    simp [redisUpdateBook, mongoUpdateBook, caUpdateBook, hr, hm, hmiss, hc,
      hcmiss]

/-- C3 witness. -/
theorem updateMissingBehavior_witness :
    lookupA redisInit.books (goAtoi "7") = none
    ∧ objectIDFromHex "000000000000000000000007" = some 7
    ∧ lookupA mongoInit.docs 7 = none
    ∧ lookupA caInit.docs 7 = none
    ∧ ((redisUpdateBook redisInit "7" (some ⟨0, "T", "A"⟩)).1 = 404
      ∧ (mongoUpdateBook mongoInit "000000000000000000000007"
          (some ⟨0, "T", "A"⟩)).1 = 200
      ∧ (mongoUpdateBook mongoInit "000000000000000000000007"
          (some ⟨0, "T", "A"⟩)).2.2.docs = mongoInit.docs
      ∧ (caUpdateBook caInit "000000000000000000000007"
          (some ⟨0, "T", "A"⟩) false).1 = 200
      ∧ (caUpdateBook caInit "000000000000000000000007"
          (some ⟨0, "T", "A"⟩) false).2.2.docs = caInit.docs) :=
  ⟨rfl, rfl, rfl, rfl,
    updateMissingBehavior redisInit "7" ⟨0, "T", "A"⟩ rfl mongoInit
      "000000000000000000000007" 7 ⟨0, "T", "A"⟩ rfl rfl caInit
      "000000000000000000000007" 7 ⟨0, "T", "A"⟩ rfl rfl⟩

/-- C4: In every variant, a Get with the id assigned by a successful
Create returns exactly the Book the Create returned (the round trip).
The Get path string must denote the assigned id: counter value in the
key-value variant, 24-hex rendering of the ObjectID in the document
variants (in the cache-aside variant the Get is answered straight from
the cache entry the Create wrote). -/
theorem createGetRoundTrip
    (rs : RedisState) (nb : RBook) (rps : String)
    (hr : goAtoi rps = rs.nextId + 1)
    (g : Nat → OId) (ms : MongoState) (p : MPayload) (mid : OId) (mps : String)
    (hmid : mid = (if p.idSupplied = 0 then g ms.seed else p.idSupplied))
    (hmnew : lookupA ms.docs mid = none)
    (hmps : objectIDFromHex mps = some mid)
    (g2 : Nat → OId) (cs : CAState) (q : MPayload) (cid : OId)
    (hcid : cid = (if q.idSupplied = 0 then g2 cs.seed else q.idSupplied))
    (hcnew : lookupA cs.docs cid = none)
    (hcps : objectIDFromHex (oidHex cid) = some cid) :
    ((redisCreateBook rs (some nb)).1 = 201
      ∧ redisGetBook (redisCreateBook rs (some nb)).2.2 rps
          = (200, (redisCreateBook rs (some nb)).2.1))
    ∧ ((mongoCreateBook g ms (some p)).1 = 201
      ∧ mongoGetBook (mongoCreateBook g ms (some p)).2.2 mps
          = (200, (mongoCreateBook g ms (some p)).2.1))
    ∧ ((caCreateBook g2 cs (some q) false).1 = 201
      ∧ (caGetBook (caCreateBook g2 cs (some q) false).2.2 (oidHex cid)
          false).1 = 200
      ∧ (caGetBook (caCreateBook g2 cs (some q) false).2.2 (oidHex cid)
          false).2.1 = (caCreateBook g2 cs (some q) false).2.1) := by
  refine ⟨⟨rfl, ?_⟩, ?_, ?_⟩
  · simp [redisCreateBook, redisGetBook, hr, lookupA_insertA_self]
  · subst hmid
    simp [mongoCreateBook, mongoGetBook, hmnew, hmps, lookupA_insertA_self]
  · subst hcid
    simp [caCreateBook, caGetBook, hcnew, hcps, lookupA_insertA_self]

/-- C4 witness. -/
theorem createGetRoundTrip_witness :
    goAtoi "1" = redisInit.nextId + 1
    ∧ (1 : OId) = (if (0 : OId) = 0 then (fun n => n + 1) mongoInit.seed else 0)
    ∧ lookupA mongoInit.docs 1 = none
    ∧ objectIDFromHex "000000000000000000000001" = some 1
    ∧ objectIDFromHex (oidHex 1) = some 1
    ∧ ((redisCreateBook redisInit (some ⟨0, "T", "A"⟩)).1 = 201
      ∧ redisGetBook (redisCreateBook redisInit (some ⟨0, "T", "A"⟩)).2.2 "1"
          = (200, (redisCreateBook redisInit (some ⟨0, "T", "A"⟩)).2.1)) :=
  ⟨rfl, rfl, rfl, rfl, rfl,
    (createGetRoundTrip redisInit ⟨0, "T", "A"⟩ "1" rfl (fun n => n + 1)
      mongoInit ⟨0, "T", "A"⟩ 1 "000000000000000000000001" rfl rfl rfl
      (fun n => n + 1) caInit ⟨0, "T", "A"⟩ 1 rfl rfl rfl).1⟩

/-- C5: A successful Update stores and returns the path id regardless of
any id in the body, with the payload's title and author, and a
subsequent Get of the same path returns exactly those fields.  Stated
for the two variants the claim cites: the key-value-only variant (where
success requires the book to exist) and the cache-aside variant (where
the update succeeds unconditionally once the id parses and, on a match,
rewrites the stored fields; the subsequent Get is served from the
refreshed cache entry). -/
theorem updateForcesPathId
    (rs : RedisState) (rps : String) (ub : RBook) (b0 : RBook)
    (hr : lookupA rs.books (goAtoi rps) = some b0)
    (cs : CAState) (cps : String) (o : OId) (q : MPayload)
    (hc : objectIDFromHex cps = some o) :
    ((redisUpdateBook rs rps (some ub)).1 = 200
      ∧ (redisUpdateBook rs rps (some ub)).2.1
          = some ⟨goAtoi rps, ub.title, ub.author⟩
      ∧ lookupA (redisUpdateBook rs rps (some ub)).2.2.books (goAtoi rps)
          = some ⟨goAtoi rps, ub.title, ub.author⟩
      ∧ redisGetBook (redisUpdateBook rs rps (some ub)).2.2 rps
          = (200, some ⟨goAtoi rps, ub.title, ub.author⟩))
    ∧ ((caUpdateBook cs cps (some q) false).1 = 200
      ∧ (caUpdateBook cs cps (some q) false).2.1
          = some ⟨o, q.title, q.author⟩
      ∧ ((lookupA cs.docs o).isSome →
          lookupA (caUpdateBook cs cps (some q) false).2.2.docs o
            = some (q.title, q.author))
      ∧ (caGetBook (caUpdateBook cs cps (some q) false).2.2 cps false).1 = 200
      ∧ (caGetBook (caUpdateBook cs cps (some q) false).2.2 cps false).2.1
          = some ⟨o, q.title, q.author⟩) := by
  constructor
  · refine ⟨?_, ?_, ?_, ?_⟩ <;>
      simp [redisUpdateBook, redisGetBook, hr, lookupA_insertA_self]
  · refine ⟨?_, ?_, fun hs => ?_, ?_, ?_⟩ <;>
      simp [caUpdateBook, caGetBook, hc, lookupA_insertA_self]
    · simp [hs, lookupA_insertA_self]

/-- C5 witness. -/
theorem updateForcesPathId_witness :
    lookupA (⟨[(1, ⟨1, "T", "A"⟩)], 1⟩ : RedisState).books (goAtoi "1")
        = some ⟨1, "T", "A"⟩
    ∧ objectIDFromHex "000000000000000000000003" = some 3
    ∧ ((redisUpdateBook ⟨[(1, ⟨1, "T", "A"⟩)], 1⟩ "1"
          (some ⟨99, "T2", "A2"⟩)).1 = 200
      ∧ (redisUpdateBook ⟨[(1, ⟨1, "T", "A"⟩)], 1⟩ "1"
          (some ⟨99, "T2", "A2"⟩)).2.1 = some ⟨goAtoi "1", "T2", "A2"⟩) :=
  ⟨rfl, rfl,
    ⟨(updateForcesPathId ⟨[(1, ⟨1, "T", "A"⟩)], 1⟩ "1" ⟨99, "T2", "A2"⟩
        ⟨1, "T", "A"⟩ rfl caInit "000000000000000000000003" 3
        ⟨0, "T", "A"⟩ rfl).1.1,
      (updateForcesPathId ⟨[(1, ⟨1, "T", "A"⟩)], 1⟩ "1" ⟨99, "T2", "A2"⟩
        ⟨1, "T", "A"⟩ rfl caInit "000000000000000000000003" 3
        ⟨0, "T", "A"⟩ rfl).1.2.1⟩⟩

/-- C7: In the cache-aside variant, Delete of an existing book removes
it from MongoDB first and then deletes the cache entry.  If the cache
delete fails the request answers 500 while the MongoDB delete stands
(no rollback): the book is absent from durable storage and the cache is
left untouched.  If the cache delete succeeds the request answers 200
and both entries are gone. -/
theorem deleteCacheFailureNoRollback
    (cs : CAState) (ps : String) (o : OId)
    (hp : objectIDFromHex ps = some o)
    (hnd : (cs.docs.map Prod.fst).Nodup)
    (hex : (lookupA cs.docs o).isSome) :
    ((caDeleteBook cs ps true).1 = 500
      ∧ lookupA (caDeleteBook cs ps true).2.docs o = none
      ∧ (caDeleteBook cs ps true).2.cache = cs.cache)
    ∧ ((caDeleteBook cs ps false).1 = 200
      ∧ lookupA (caDeleteBook cs ps false).2.docs o = none
      ∧ (caDeleteBook cs ps false).2.cache
          = eraseA cs.cache (CKey.bookKey ps)) := by
  refine ⟨⟨?_, ?_, ?_⟩, ?_, ?_, ?_⟩ <;>
    simp [caDeleteBook, hp, hex, lookupA_eraseA_self _ _ hnd]

/-- C7 witness. -/
theorem deleteCacheFailureNoRollback_witness :
    objectIDFromHex "000000000000000000000002" = some 2
    ∧ ((⟨[(2, ("T", "A"))], 0,
          [(CKey.bookKey "000000000000000000000002",
            CVal.bookVal ⟨2, "T", "A"⟩)]⟩ : CAState).docs.map
          Prod.fst).Nodup
    ∧ (lookupA (⟨[(2, ("T", "A"))], 0,
          [(CKey.bookKey "000000000000000000000002",
            CVal.bookVal ⟨2, "T", "A"⟩)]⟩ : CAState).docs 2).isSome
    ∧ ((caDeleteBook ⟨[(2, ("T", "A"))], 0,
          [(CKey.bookKey "000000000000000000000002",
            CVal.bookVal ⟨2, "T", "A"⟩)]⟩ "000000000000000000000002"
          true).1 = 500
      ∧ lookupA (caDeleteBook ⟨[(2, ("T", "A"))], 0,
          [(CKey.bookKey "000000000000000000000002",
            CVal.bookVal ⟨2, "T", "A"⟩)]⟩ "000000000000000000000002"
          true).2.docs 2 = none) :=
  ⟨rfl, by decide, by decide,
    ⟨(deleteCacheFailureNoRollback ⟨[(2, ("T", "A"))], 0,
        [(CKey.bookKey "000000000000000000000002",
          CVal.bookVal ⟨2, "T", "A"⟩)]⟩ "000000000000000000000002" 2 rfl
        (by decide) (by decide)).1.1,
      (deleteCacheFailureNoRollback ⟨[(2, ("T", "A"))], 0,
        [(CKey.bookKey "000000000000000000000002",
          CVal.bookVal ⟨2, "T", "A"⟩)]⟩ "000000000000000000000002" 2 rfl
        (by decide) (by decide)).1.2.1⟩⟩

/-- C8 counterexample: the key-value-only variant ignores the `Atoi`
error, so `GET /books/abc` on an empty store answers 404 (treated as a
reference to book id 0), not 400 BadRequest. -/
theorem invalidIdNotBadRequest :
    (redisGetBook redisInit "abc").1 = 404
    ∧ (redisGetBook redisInit "abc").1 ≠ 400 :=
  ⟨rfl, by decide⟩

/-- C8 amended: in the object-id (Mongo) variants every request whose
path id is not 24 hex characters is rejected with 400; in the
integer-id variant the `Atoi` error is ignored, the id parses as 0, and
the request is treated as a reference to book id 0 — absent whenever no
book is stored under id 0 (ids issued by the counter start at 1) — so
Get/Update/Delete answer 404, not 400. -/
theorem invalidIdHandling
    (ms : MongoState) (mps : String) (body : Option MPayload)
    (hp : objectIDFromHex mps = none)
    (cs : CAState) (cps : String) (cbody : Option MPayload) (sf df : Bool)
    (hcp : objectIDFromHex cps = none)
    (rs : RedisState) (rps : String) (rbody : RBook)
    (hr : goAtoiRes rps = none) (h0 : lookupA rs.books 0 = none) :
    (mongoGetBook ms mps).1 = 400
    ∧ (mongoUpdateBook ms mps body).1 = 400
    ∧ (mongoDeleteBook ms mps).1 = 400
    ∧ (caGetBook cs cps sf).1 = 400
    ∧ (caUpdateBook cs cps cbody sf).1 = 400
    ∧ (caDeleteBook cs cps df).1 = 400
    ∧ (redisGetBook rs rps).1 = 404
    ∧ (redisUpdateBook rs rps (some rbody)).1 = 404
    ∧ (redisDeleteBook rs rps).1 = 404 := by
  have hv : goAtoi rps = 0 := by simp [goAtoi, hr]
  refine ⟨?_, ?_, ?_, ?_, ?_, ?_, ?_, ?_, ?_⟩ <;>
    simp [mongoGetBook, mongoUpdateBook, mongoDeleteBook, caGetBook,
      caUpdateBook, caDeleteBook, redisGetBook, redisUpdateBook,
      redisDeleteBook, hp, hcp, hv, h0]

/-- C8 amended, witness. -/
theorem invalidIdHandling_witness :
    objectIDFromHex "abc" = none
    ∧ goAtoiRes "abc" = none
    ∧ lookupA redisInit.books 0 = none
    ∧ ((mongoGetBook mongoInit "abc").1 = 400
      ∧ (caGetBook caInit "abc" false).1 = 400
      ∧ (redisGetBook redisInit "abc").1 = 404) :=
  ⟨rfl, rfl, rfl,
    (invalidIdHandling mongoInit "abc" none rfl caInit "abc" none false false
        rfl redisInit "abc" ⟨0, "T", "A"⟩ rfl rfl).1,
    (invalidIdHandling mongoInit "abc" none rfl caInit "abc" none false false
        rfl redisInit "abc" ⟨0, "T", "A"⟩ rfl rfl).2.2.2.1,
    (invalidIdHandling mongoInit "abc" none rfl caInit "abc" none false false
        rfl redisInit "abc" ⟨0, "T", "A"⟩ rfl rfl).2.2.2.2.2.2.1⟩

/-- C10: List on a store with no books answers 200, and the nil
`[]Book` slice serializes as JSON `null`, not as the empty array `[]` —
in every variant (in the cache-aside variant both with no cached list
and with a cached empty list). -/
theorem emptyListSerializesNull
    (rs : RedisState) (hr : rs.books = [])
    (ms : MongoState) (hm : ms.docs = [])
    (cs : CAState) (hcd : cs.docs = [])
    (hcc : lookupA cs.cache CKey.listKey = none)
    (cs2 : CAState)
    (hc2 : lookupA cs2.cache CKey.listKey = some (CVal.listVal [])) :
    ((redisGetBooks rs).1 = 200 ∧ rbookListJv (redisGetBooks rs).2 = Jv.null)
    ∧ ((mongoGetBooks ms).1 = 200
      ∧ mbookListJv (mongoGetBooks ms).2 = Jv.null)
    ∧ ((caGetBooks cs false).1 = 200 ∧ (caGetBooks cs false).2.1 = some []
      ∧ mbookListJv [] = Jv.null)
    ∧ ((caGetBooks cs2 false).1 = 200
      ∧ (caGetBooks cs2 false).2.1 = some [])
    ∧ Jv.null ≠ Jv.arr [] := by
  refine ⟨⟨rfl, ?_⟩, ⟨rfl, ?_⟩, ?_, ?_, fun h => Jv.noConfusion h⟩ <;>
    simp [redisGetBooks, mongoGetBooks, caGetBooks, rbookListJv, mbookListJv,
      hr, hm, hcd, hcc, hc2, docBook]

/-- C10 witness. -/
theorem emptyListSerializesNull_witness :
    redisInit.books = [] ∧ mongoInit.docs = [] ∧ caInit.docs = []
    ∧ lookupA caInit.cache CKey.listKey = none
    ∧ lookupA [(CKey.listKey, CVal.listVal [])] CKey.listKey
        = some (CVal.listVal [])
    ∧ ((redisGetBooks redisInit).1 = 200
      ∧ rbookListJv (redisGetBooks redisInit).2 = Jv.null) :=
  ⟨rfl, rfl, rfl, rfl, rfl,
    (emptyListSerializesNull redisInit rfl mongoInit rfl caInit rfl rfl
        ⟨[], 0, [(CKey.listKey, CVal.listVal [])]⟩ rfl).1⟩

/-- C6 counterexample: in the document-store variant a Create whose
body carries `"_id":"000000000000000000000005"` (bound by
`ShouldBindJSON` into the ObjectID field) succeeds and returns a Book
whose id is exactly the caller-supplied one — the id is taken from the
request body, contradicting the claim. -/
theorem createUsesCallerSuppliedId :
    (mongoCreateBook (fun n => n + 1) mongoInit (some ⟨5, "T", "A"⟩)).1 = 201
    ∧ (mongoCreateBook (fun n => n + 1) mongoInit (some ⟨5, "T", "A"⟩)).2.1
        = some ⟨5, "T", "A"⟩ :=
  ⟨rfl, rfl⟩

/-- C6 amended: in the key-value-only variant the id of a created book
is the incremented counter — positive, not previously stored, and any
id in the body is overwritten.  In the document-store variants a
successful Create returns an id that is not currently stored (MongoDB's
unique `_id` index fails duplicate inserts); the backend generates the
id only when the body supplies none (zero), and a caller-supplied
nonzero `_id` is used as the document id. -/
theorem createIdAssignment
    (rs : RedisState) (nb : RBook)
    (hkeys : ∀ p ∈ rs.books, p.1 ≤ rs.nextId) (hpos : 0 ≤ rs.nextId)
    (g : Nat → OId) (ms : MongoState) (p : MPayload)
    (h201 : (mongoCreateBook g ms (some p)).1 = 201) :
    ((redisCreateBook rs (some nb)).1 = 201
      ∧ (redisCreateBook rs (some nb)).2.1
          = some ⟨rs.nextId + 1, nb.title, nb.author⟩
      ∧ 0 < rs.nextId + 1
      ∧ lookupA rs.books (rs.nextId + 1) = none)
    ∧ (∃ b, (mongoCreateBook g ms (some p)).2.1 = some b
        ∧ lookupA ms.docs b.id = none
        ∧ (p.idSupplied ≠ 0 → b.id = p.idSupplied)
        ∧ (p.idSupplied = 0 → b.id = g ms.seed)) := by
  constructor
  · refine ⟨rfl, rfl, by omega, ?_⟩
    exact lookupA_eq_none _ _ fun q hq he => by
      have := hkeys q hq; omega
  · by_cases hz : p.idSupplied = 0
    · have hdup : lookupA ms.docs (g ms.seed) = none := by
        cases hlk : lookupA ms.docs (g ms.seed) with
        | none => rfl
        | some v => exact absurd h201 (by simp [mongoCreateBook, hz, hlk])
      exact ⟨⟨g ms.seed, p.title, p.author⟩,
        by simp [mongoCreateBook, hz, hdup], hdup,
        fun h => absurd hz h, fun _ => rfl⟩
    · have hdup : lookupA ms.docs p.idSupplied = none := by
        cases hlk : lookupA ms.docs p.idSupplied with
        | none => rfl
        | some v => exact absurd h201 (by simp [mongoCreateBook, hz, hlk])
      exact ⟨⟨p.idSupplied, p.title, p.author⟩,
        by simp [mongoCreateBook, hz, hdup], hdup,
        fun _ => rfl, fun h => absurd h hz⟩

/-- C6 amended, witness. -/
theorem createIdAssignment_witness :
    (∀ p ∈ redisInit.books, p.1 ≤ redisInit.nextId)
    ∧ (0 : Int) ≤ redisInit.nextId
    ∧ (mongoCreateBook (fun n => n + 1) mongoInit
        (some ⟨0, "T", "A"⟩)).1 = 201
    ∧ ((redisCreateBook redisInit (some ⟨9, "T", "A"⟩)).1 = 201
      ∧ (redisCreateBook redisInit (some ⟨9, "T", "A"⟩)).2.1
          = some ⟨redisInit.nextId + 1, "T", "A"⟩) :=
  ⟨fun p hp => absurd hp (List.not_mem_nil p), by decide, rfl,
    (createIdAssignment redisInit ⟨9, "T", "A"⟩
        (fun p hp => absurd hp (List.not_mem_nil p)) (by decide)
        (fun n => n + 1) mongoInit ⟨0, "T", "A"⟩ rfl).1.1,
    (createIdAssignment redisInit ⟨9, "T", "A"⟩
        (fun p hp => absurd hp (List.not_mem_nil p)) (by decide)
        (fun n => n + 1) mongoInit ⟨0, "T", "A"⟩ rfl).1.2.1⟩

/-- C9: in the key-value-only variant a successful Update or Delete of
the book at the path id modifies only the entry under `"book:"+id`: the
`"next_book_id"` counter and every other book entry are unchanged, so a
Get of any other id returns the same result before and after. -/
theorem updateDeleteFrame
    (s : RedisState) (ps : String) (ub : RBook) (b0 : RBook)
    (hu : lookupA s.books (goAtoi ps) = some b0) :
    ((redisUpdateBook s ps (some ub)).1 = 200
      ∧ (redisUpdateBook s ps (some ub)).2.2.nextId = s.nextId
      ∧ ∀ j, j ≠ goAtoi ps →
          lookupA (redisUpdateBook s ps (some ub)).2.2.books j
            = lookupA s.books j)
    ∧ ((redisDeleteBook s ps).1 = 200
      ∧ (redisDeleteBook s ps).2.nextId = s.nextId
      ∧ ∀ j, j ≠ goAtoi ps →
          lookupA (redisDeleteBook s ps).2.books j = lookupA s.books j)
    ∧ (∀ ps2, goAtoi ps2 ≠ goAtoi ps →
        redisGetBook (redisUpdateBook s ps (some ub)).2.2 ps2
            = redisGetBook s ps2
        ∧ redisGetBook (redisDeleteBook s ps).2 ps2 = redisGetBook s ps2) := by
  have hupd : ∀ j, j ≠ goAtoi ps →
      lookupA (redisUpdateBook s ps (some ub)).2.2.books j
        = lookupA s.books j := by
    intro j hj
    simp only [redisUpdateBook, hu]
    exact lookupA_insertA_ne s.books (goAtoi ps) j _ hj
  have hdel : ∀ j, j ≠ goAtoi ps →
      lookupA (redisDeleteBook s ps).2.books j = lookupA s.books j := by
    intro j hj
    simp only [redisDeleteBook, hu]
    exact lookupA_eraseA_ne s.books (goAtoi ps) j hj
  refine ⟨⟨by simp [redisUpdateBook, hu], by simp [redisUpdateBook, hu],
      hupd⟩,
    ⟨by simp [redisDeleteBook, hu], by simp [redisDeleteBook, hu], hdel⟩,
    fun ps2 hps2 => ⟨?_, ?_⟩⟩
  · simp only [redisGetBook, hupd (goAtoi ps2) hps2]
  · simp only [redisGetBook, hdel (goAtoi ps2) hps2]

/-- C9 witness. -/
theorem updateDeleteFrame_witness :
    lookupA (⟨[(1, ⟨1, "T", "A"⟩), (2, ⟨2, "U", "B"⟩)], 2⟩ :
        RedisState).books (goAtoi "1") = some ⟨1, "T", "A"⟩
    ∧ goAtoi "2" ≠ goAtoi "1"
    ∧ redisGetBook (redisUpdateBook
          ⟨[(1, ⟨1, "T", "A"⟩), (2, ⟨2, "U", "B"⟩)], 2⟩ "1"
          (some ⟨0, "T2", "A2"⟩)).2.2 "2"
        = redisGetBook ⟨[(1, ⟨1, "T", "A"⟩), (2, ⟨2, "U", "B"⟩)], 2⟩ "2" :=
  ⟨by decide, by decide,
    ((updateDeleteFrame ⟨[(1, ⟨1, "T", "A"⟩), (2, ⟨2, "U", "B"⟩)], 2⟩ "1"
        ⟨0, "T2", "A2"⟩ ⟨1, "T", "A"⟩ (by decide)).2.2 "2" (by decide)).1⟩

/-- C2: starting from the empty store, after any all-successful
sequence of N creates and M deletes, List answers 200 with exactly
N − M books (stated additively: length + M = N), and the returned books
are, id for id, exactly the last-written map of the sequence (title and
author of the create that made each surviving id) — in all three
variants.  In the cache-aside variant no create or delete writes the
`"bookList"` cache entry, so the final List reads the durable store. -/
theorem listAfterCreatesDeletes
    (rops : List ROp) (hrok : (redisRun redisInit rops).1 = true)
    (g : Nat → OId) (mops : List MOp)
    (hmok : (mongoRun g mongoInit mops).1 = true)
    (g2 : Nat → OId) (cops : List CAOp)
    (hcok : (caRun g2 caInit cops).1 = true) :
    ((redisGetBooks (redisRun redisInit rops).2).1 = 200
      ∧ (redisGetBooks (redisRun redisInit rops).2).2.length + rDeletes rops
          = rCreates rops
      ∧ (redisGetBooks (redisRun redisInit rops).2).2.map
            (fun b => (b.id, b.title, b.author)) = (rSpecFold rops).1)
    ∧ ((mongoGetBooks (mongoRun g mongoInit mops).2).1 = 200
      ∧ (mongoGetBooks (mongoRun g mongoInit mops).2).2.length + mDeletes mops
          = mCreates mops
      ∧ (mongoGetBooks (mongoRun g mongoInit mops).2).2.map
            (fun b => (b.id, b.title, b.author)) = (mSpecFold g mops).1)
    ∧ ((caGetBooks (caRun g2 caInit cops).2 false).1 = 200
      ∧ (caGetBooks (caRun g2 caInit cops).2 false).2.1
          = some ((mSpecFold g2 (cops.map caToMOp)).1.map docBook)
      ∧ (mSpecFold g2 (cops.map caToMOp)).1.length + caDeletes cops
          = caCreates cops) := by
  refine ⟨?_, ?_, ?_⟩
  · have h := redisRun_ref rops redisInit []
      rfl (fun p hp => absurd hp (List.not_mem_nil p)) hrok
    refine ⟨rfl, ?_, ?_⟩
    · have h2 : (List.foldl rSpecStep ([], redisInit.nextId) rops).1.length
          + rDeletes rops = 0 + rCreates rops := h.2
      rw [Nat.zero_add] at h2
      simp only [redisGetBooks, h.1, List.length_map]
      exact h2
    · simp only [redisGetBooks]
      rw [h.1]
      exact map_proj_ref _
  · have h := mongoRun_ref g mops mongoInit hmok
    have hdocs : (mongoRun g mongoInit mops).2.docs
        = (mSpecFold g mops).1 := congrArg Prod.fst h.1
    refine ⟨rfl, ?_, ?_⟩
    · have h2 : (mSpecFold g mops).1.length + mDeletes mops
          = 0 + mCreates mops := h.2
      rw [Nat.zero_add] at h2
      simp only [mongoGetBooks, hdocs, List.length_map]
      exact h2
    · simp only [mongoGetBooks]
      rw [hdocs]
      exact map_proj_docs _
  · have h := caRun_ref g2 cops caInit hcok
    have hdocs : (caRun g2 caInit cops).2.docs
        = (mSpecFold g2 (cops.map caToMOp)).1 := congrArg Prod.fst h.1
    have hcache : lookupA (caRun g2 caInit cops).2.cache CKey.listKey
        = none := h.2.2 rfl
    have h2 : (mSpecFold g2 (cops.map caToMOp)).1.length + caDeletes cops
        = 0 + caCreates cops := h.2.1
    rw [Nat.zero_add] at h2
    refine ⟨?_, ?_, h2⟩
    · simp [caGetBooks, hcache]
    · simp [caGetBooks, hcache, hdocs]

/-- C2 witness: two creates then one delete, in each variant. -/
theorem listAfterCreatesDeletes_witness :
    (redisRun redisInit
        [ROp.create ⟨0, "Dune", "Herbert"⟩, ROp.create ⟨0, "Emma", "Austen"⟩,
          ROp.delete "1"]).1 = true
    ∧ (mongoRun (fun n => n + 1) mongoInit
        [MOp.create ⟨0, "Dune", "Herbert"⟩, MOp.create ⟨0, "Emma", "Austen"⟩,
          MOp.delete "000000000000000000000001"]).1 = true
    ∧ (caRun (fun n => n + 1) caInit
        [CAOp.create ⟨0, "Dune", "Herbert"⟩ false,
          CAOp.create ⟨0, "Emma", "Austen"⟩ false,
          CAOp.delete "000000000000000000000001" false]).1 = true
    ∧ ((redisGetBooks (redisRun redisInit
          [ROp.create ⟨0, "Dune", "Herbert"⟩,
            ROp.create ⟨0, "Emma", "Austen"⟩, ROp.delete "1"]).2).2.length
          + rDeletes [ROp.create ⟨0, "Dune", "Herbert"⟩,
              ROp.create ⟨0, "Emma", "Austen"⟩, ROp.delete "1"]
        = rCreates [ROp.create ⟨0, "Dune", "Herbert"⟩,
            ROp.create ⟨0, "Emma", "Austen"⟩, ROp.delete "1"]) :=
  ⟨by decide, by decide, by decide,
    (listAfterCreatesDeletes
        [ROp.create ⟨0, "Dune", "Herbert"⟩, ROp.create ⟨0, "Emma", "Austen"⟩,
          ROp.delete "1"] (by decide) (fun n => n + 1)
        [MOp.create ⟨0, "Dune", "Herbert"⟩, MOp.create ⟨0, "Emma", "Austen"⟩,
          MOp.delete "000000000000000000000001"] (by decide) (fun n => n + 1)
        [CAOp.create ⟨0, "Dune", "Herbert"⟩ false,
          CAOp.create ⟨0, "Emma", "Austen"⟩ false,
          CAOp.delete "000000000000000000000001" false]
        (by decide)).1.2.1⟩

/-- C1: cache-aside Get.  On a cache hit (a valid id whose `"book:"+id`
entry is cached) the cached book is returned with zero MongoDB reads.
On a miss for a book present in MongoDB, the book is read from MongoDB
(one read), written to the cache under `"book:"+id` (no expiration, so
the entry persists), and returned; an immediately subsequent Get of the
same id is then a hit: it returns the same book with zero MongoDB
reads. -/
theorem cacheAsideGet
    (s : CAState) (ps : String) (o : OId) (sf : Bool) (b : MBook)
    (hp : objectIDFromHex ps = some o)
    (hhit : lookupA s.cache (CKey.bookKey ps) = some (CVal.bookVal b))
    (s2 : CAState) (ps2 : String) (o2 : OId) (d : String × String)
    (hp2 : objectIDFromHex ps2 = some o2)
    (hmiss : lookupA s2.cache (CKey.bookKey ps2) = none)
    (hdoc : lookupA s2.docs o2 = some d) :
    caGetBook s ps sf = (200, some b, s, 0)
    ∧ ((caGetBook s2 ps2 false).1 = 200
      ∧ (caGetBook s2 ps2 false).2.1 = some ⟨o2, d.1, d.2⟩
      ∧ (caGetBook s2 ps2 false).2.2.2 = 1
      ∧ lookupA (caGetBook s2 ps2 false).2.2.1.cache (CKey.bookKey ps2)
          = some (CVal.bookVal ⟨o2, d.1, d.2⟩)
      ∧ caGetBook (caGetBook s2 ps2 false).2.2.1 ps2 false
          = (200, some ⟨o2, d.1, d.2⟩, (caGetBook s2 ps2 false).2.2.1, 0)) := by
  refine ⟨?_, ?_, ?_, ?_, ?_, ?_⟩ <;>
    simp [caGetBook, hp, hhit, hp2, hmiss, hdoc, lookupA_insertA_self]

/-- C1 witness. -/
theorem cacheAsideGet_witness :
    objectIDFromHex "000000000000000000000004" = some 4
    ∧ lookupA [(CKey.bookKey "000000000000000000000004",
        CVal.bookVal ⟨4, "T", "A"⟩)] (CKey.bookKey "000000000000000000000004")
        = some (CVal.bookVal ⟨4, "T", "A"⟩)
    ∧ lookupA caInit.cache (CKey.bookKey "000000000000000000000004") = none
    ∧ lookupA [((4 : OId), ("T", "A"))] 4 = some ("T", "A")
    ∧ caGetBook ⟨[(4, ("T", "A"))], 0,
        [(CKey.bookKey "000000000000000000000004",
          CVal.bookVal ⟨4, "T", "A"⟩)]⟩ "000000000000000000000004" false
        = (200, some ⟨4, "T", "A"⟩,
            ⟨[(4, ("T", "A"))], 0,
              [(CKey.bookKey "000000000000000000000004",
                CVal.bookVal ⟨4, "T", "A"⟩)]⟩, 0) :=
  ⟨rfl, by decide, rfl, rfl,
    (cacheAsideGet ⟨[(4, ("T", "A"))], 0,
        [(CKey.bookKey "000000000000000000000004",
          CVal.bookVal ⟨4, "T", "A"⟩)]⟩ "000000000000000000000004" 4 false
        ⟨4, "T", "A"⟩ rfl (by decide) ⟨[(4, ("T", "A"))], 0, []⟩
        "000000000000000000000004" 4 ("T", "A") rfl rfl rfl).1⟩

end BooksCRUD
